import Mathlib

/-!
Verification of the HR Smart Recruiter RAG core against its specification.

Strings are modelled as lists of characters (`Str`).  External collaborators
(the FAISS index, the embedding model, the LLM, the PDF and DOCX readers)
are modelled as oracle parameters: a fallible call is a function returning
`Except`, and the Python `try/except` blocks around those calls are
translated explicitly.
-/

abbrev Str := List Char

/-- Lower-casing of a string, modelling the Python lower method. -/
def lowerStr (s : Str) : Str := s.map Char.toLower

/-- Whitespace test used by the Python split and strip with no arguments. -/
def isWS (c : Char) : Bool := c.isWhitespace

/-- Boolean prefix test on character lists. -/
def isPrefixCh : Str → Str → Bool
  | [], _ => true
  | _ :: _, [] => false
  | a :: as, b :: bs => a == b && isPrefixCh as bs

/-- Python substring containment: needle occurs contiguously in hay. -/
def containsSub (hay needle : Str) : Bool :=
  match hay with
  | [] => needle.isEmpty
  | _ :: t => isPrefixCh needle hay || containsSub t needle

namespace Config

/-- Config.COUNT_KEYWORDS from src/config.py. -/
def COUNT_KEYWORDS : List Str :=
  ["how many".data, "count".data, "number of".data, "total".data, "how much".data]

/-- Config.CV_KEYWORDS from src/config.py. -/
def CV_KEYWORDS : List Str :=
  ["cv".data, "cvs".data, "resume".data, "resumes".data,
   "applicant".data, "applicants".data, "candidate".data, "candidates".data]

/-- Config.RETRIEVAL_K from src/config.py. -/
def RETRIEVAL_K : Nat := 20

/-- Config.SPECIFIC_RETRIEVAL_K from src/config.py. -/
def SPECIFIC_RETRIEVAL_K : Nat := 5

/-- Config.MAX_SIMILARITY_DOCS from src/config.py. -/
def MAX_SIMILARITY_DOCS : Nat := 100

end Config

/-- is_count_query from utils/helpers.py. -/
def is_count_query (query : Str) : Bool :=
  let query_lower := lowerStr query
  (Config.COUNT_KEYWORDS.any (fun keyword => containsSub query_lower keyword)) &&
  (Config.CV_KEYWORDS.any (fun keyword => containsSub query_lower keyword))

/-- is_applicant_specific from utils/helpers.py: the for loop returning the
first applicant name whose lower-cased form occurs in the lower-cased query. -/
def is_applicant_specific (query : Str) : List Str → Option Str
  | [] => none
  | name :: rest =>
    if containsSub (lowerStr query) (lowerStr name) then some name
    else is_applicant_specific query rest

/-- Python text.split() with no arguments: split on whitespace runs,
discarding empty pieces. -/
def pySplit (s : Str) : List Str :=
  (s.splitOnP isWS).filter (fun w => !w.isEmpty)

/-- The join of a list of words with a single space, Python space.join. -/
def joinSp : List Str → Str
  | [] => []
  | [w] => w
  | w :: ws => w ++ ' ' :: joinSp ws

/-- Python text.strip() with no arguments: drop whitespace from both ends. -/
def pyStrip (s : Str) : Str :=
  ((s.dropWhile isWS).reverse.dropWhile isWS).reverse

/-- clean_text from utils/helpers.py: empty guard, whitespace normalisation,
removal of null and replacement characters, final strip. -/
def clean_text (text : Str) : Str :=
  if text.isEmpty then []
  else
    pyStrip (((joinSp (pySplit text)).filter
      (fun c => c != '\x00')).filter (fun c => c != '\uFFFD'))

/-- Index of the last dot character in a string, if any. -/
def lastDotIdx (s : Str) : Option Nat :=
  match s.reverse.findIdx? (fun c => c == '.') with
  | none => none
  | some j => some (s.length - 1 - j)

/-- The root part of os.path.splitext for a bare file name: everything
before the last dot, unless every character before that dot is a dot. -/
def splitext_root (s : Str) : Str :=
  match lastDotIdx s with
  | none => s
  | some i => if (s.take i).all (fun c => c == '.') then s else s.take i

/-- extract_person_name from utils/helpers.py: strip the extension with
os.path.splitext and strip surrounding whitespace. -/
def extract_person_name (filename : Str) : Str :=
  pyStrip (splitext_root filename)

example : is_count_query ("How many CVs do you have?".data) = true := by decide
example : is_count_query ("How many years of experience?".data) = false := by decide
example : clean_text ("a \x00 b".data) = "a  b".data := by decide
example : clean_text (clean_text ("a \x00 b".data)) = "a b".data := by decide
example : extract_person_name (" Jane Doe.pdf".data) = "Jane Doe".data := by decide
example : extract_person_name (".bashrc".data) = ".bashrc".data := by decide

/-- A LangChain document: page content plus the two metadata keys this
repository uses (applicant and type); an absent key is none. -/
structure LangchainDocument where
  page_content : Str
  applicant : Option Str
  mtype : Option Str
deriving DecidableEq

/-- The FAISS vector store as used by this code: an oracle for ranked
similarity search with and without scores; a failing call returns an error. -/
structure VectorStore where
  similarity_search_with_score : Str → Nat → Except Str (List (LangchainDocument × Int))
  get_relevant_documents : Str → Nat → Except Str (List LangchainDocument)

namespace DocumentRetriever

/-- DocumentRetriever.retrieve_documents from src/vectorstore.py: the
retriever call, catching any error as an empty list. -/
def retrieve_documents (vectorstore : VectorStore) (query : Str) (k : Nat) :
    List LangchainDocument :=
  match vectorstore.get_relevant_documents query k with
  | .ok docs => docs
  | .error _ => []

/-- DocumentRetriever.retrieve_with_scores from src/vectorstore.py. -/
def retrieve_with_scores (vectorstore : VectorStore) (query : Str) (k : Nat) :
    List (LangchainDocument × Int) :=
  match vectorstore.similarity_search_with_score query k with
  | .ok docs => docs
  | .error _ => []

/-- DocumentRetriever.filter_documents_by_applicant from src/vectorstore.py:
keep the documents whose applicant metadata equals the name case-insensitively,
in order, then truncate to k. -/
def filter_documents_by_applicant (docs_with_scores : List (LangchainDocument × Int))
    (applicant_name : Str) (k : Nat) : List LangchainDocument :=
  ((docs_with_scores.filter
      (fun p => lowerStr (p.1.applicant.getD []) == lowerStr applicant_name)).map
    (fun p => p.1)).take k

end DocumentRetriever

namespace RAGEngine

/-- The synthetic count document built in RAGEngine._build_context_from_query. -/
def count_doc (applicant_names : List Str) : LangchainDocument where
  page_content :=
    ("Total number of CVs/applicants in the database: ".data) ++
    (Nat.repr applicant_names.length).data ++
    ("\n\nApplicant names: ".data) ++
    List.intercalate (", ".data) applicant_names
  applicant := some ("System".data)
  mtype := some ("count_info".data)

/-- RAGEngine._build_context_from_query from src/rag_engine.py. -/
def build_context_from_query (query : Str) (vectorstore : VectorStore)
    (applicant_names : List Str) : List LangchainDocument :=
  if is_count_query query then [count_doc applicant_names]
  else
    match is_applicant_specific query applicant_names with
    | some matched_applicant =>
        DocumentRetriever.filter_documents_by_applicant
          (DocumentRetriever.retrieve_with_scores vectorstore query Config.MAX_SIMILARITY_DOCS)
          matched_applicant Config.SPECIFIC_RETRIEVAL_K
    | none =>
        DocumentRetriever.retrieve_documents vectorstore query Config.RETRIEVAL_K

/-- RAGEngine._build_context_text from src/rag_engine.py. -/
def build_context_text (documents : List LangchainDocument) : Str :=
  List.intercalate ("\n\n".data)
    (documents.map (fun doc =>
      ("[Applicant: ".data) ++ (doc.applicant.getD ("Unknown".data)) ++
      ("]\n".data) ++ doc.page_content))

/-- The result dictionary returned by RAGEngine.query. -/
structure QueryResult where
  result : Str
  source_documents : List LangchainDocument
deriving DecidableEq

/-- RAGEngine.query from src/rag_engine.py; the prompt-and-LLM chain is the
oracle llm, applied to the context text and the question. -/
def query (llm : Str → Str → Except Str Str) (q : Str) (vectorstore : VectorStore)
    (applicant_names : List Str) : QueryResult :=
  let context_docs := build_context_from_query q vectorstore applicant_names
  if context_docs.isEmpty then
    { result := ("No relevant documents found.".data), source_documents := [] }
  else
    match llm (build_context_text context_docs) q with
    | .ok content => { result := content, source_documents := context_docs }
    | .error e => { result := ("Error occurred: ".data) ++ e, source_documents := [] }

end RAGEngine

namespace E5Embeddings

/-- E5Embeddings.embed_documents from src/embeddings.py: prepend the passage
marker to every text, then delegate to the underlying model. -/
def embed_documents (base : List Str → List (List Int)) (texts : List Str) :
    List (List Int) :=
  base (texts.map (fun text => ("passage: ".data) ++ text))

/-- E5Embeddings.embed_query from src/embeddings.py: prepend the query
marker, then delegate to the underlying model. -/
def embed_query (base : Str → List Int) (text : Str) : List Int :=
  base (("query: ".data) ++ text)

end E5Embeddings

/-- An uploaded file: its name, its declared MIME type, and the outcome the
external extraction library produces on it (text, or a raised error). -/
structure UploadedFile where
  name : Str
  ftype : Str
  payload : Except Str Str

/-- The MIME type the code accepts as PDF. -/
def pdfMime : Str := "application/pdf".data

/-- The MIME type the code accepts as DOCX. -/
def docxMime : Str :=
  "application/vnd.openxmlformats-officedocument.wordprocessingml.document".data

namespace DocumentProcessor

/-- DocumentProcessor.extract_text_from_pdf from src/document_processor.py:
re-raise any reader error with the fixed wrapper message. -/
def extract_text_from_pdf (file : UploadedFile) : Except Str Str :=
  match file.payload with
  | .ok text => .ok text
  | .error e => .error (("Error reading PDF file: ".data) ++ e)

/-- DocumentProcessor.extract_text_from_docx from src/document_processor.py. -/
def extract_text_from_docx (file : UploadedFile) : Except Str Str :=
  match file.payload with
  | .ok text => .ok text
  | .error e => .error (("Error reading DOCX file: ".data) ++ e)

/-- Assignment into a Python dict, modelled as an association list that keeps
first-insertion key order and overwrites the value of an existing key. -/
def dict_set (d : List (Str × Str)) (k v : Str) : List (Str × Str) :=
  if d.any (fun p => p.1 == k) then
    d.map (fun p => if p.1 == k then (p.1, v) else p)
  else d ++ [(k, v)]

/-- The warning printed when one file cannot be processed. -/
def warnMsg (file : UploadedFile) (e : Str) : Str :=
  ("Warning: Could not process file ".data) ++ file.name ++ (": ".data) ++ e

/-- The loop of DocumentProcessor.extract_text_from_files: the applicant
dictionary is threaded through; warnings are the printed messages in order. -/
def extract_go : List UploadedFile → List (Str × Str) → (List (Str × Str)) × List Str
  | [], acc => (acc, [])
  | file :: rest, acc =>
    if file.ftype == pdfMime then
      match extract_text_from_pdf file with
      | .ok text => extract_go rest (dict_set acc (extract_person_name file.name) text)
      | .error e =>
          let r := extract_go rest acc
          (r.1, warnMsg file e :: r.2)
    else if file.ftype == docxMime then
      match extract_text_from_docx file with
      | .ok text => extract_go rest (dict_set acc (extract_person_name file.name) text)
      | .error e =>
          let r := extract_go rest acc
          (r.1, warnMsg file e :: r.2)
    else extract_go rest acc

/-- DocumentProcessor.extract_text_from_files from src/document_processor.py,
returning the applicant dictionary together with the recorded warnings. -/
def extract_text_from_files (uploaded_files : List UploadedFile) :
    (List (Str × Str)) × List Str :=
  extract_go uploaded_files []

end DocumentProcessor

/-- A built FAISS index; only its identity matters to the claims, so it is a
wrapper around the documents it was built from. -/
structure FAISSIndex where
  docs : List LangchainDocument
deriving DecidableEq

namespace VectorStoreManager

/-- VectorStoreManager.create_documents_from_cvs from src/vectorstore.py; the
text splitter of the langchain library is the oracle split, and every chunk
of one CV is tagged with that applicant name. -/
def create_documents_from_cvs (split : Str → List Str)
    (applicant_cvs : List (Str × Str)) : List LangchainDocument :=
  applicant_cvs.foldl
    (fun all_documents p =>
      all_documents ++ (split p.2).map (fun chunk =>
        { page_content := chunk, applicant := some p.1, mtype := none }))
    []

/-- VectorStoreManager.create_vectorstore from src/vectorstore.py: none when
there are no chunks, and none when the external build raises. -/
def create_vectorstore (split : Str → List Str)
    (from_documents : List LangchainDocument → Except Str FAISSIndex)
    (applicant_cvs : List (Str × Str)) : Option FAISSIndex :=
  let documents := create_documents_from_cvs split applicant_cvs
  if documents.isEmpty then none
  else
    match from_documents documents with
    | .ok vectorstore => some vectorstore
    | .error _ => none

end VectorStoreManager

/-- A vector store whose search calls succeed with no results. -/
def vsEmpty : VectorStore where
  similarity_search_with_score := fun _ _ => .ok []
  get_relevant_documents := fun _ _ => .ok []

/-- A chunk tagged with the applicant Jane Doe. -/
def docJane : LangchainDocument where
  page_content := "jane skills".data
  applicant := some ("Jane Doe".data)
  mtype := none

/-- A chunk tagged with the applicant Bob Stone. -/
def docBob : LangchainDocument where
  page_content := "bob skills".data
  applicant := some ("Bob Stone".data)
  mtype := none

/-- A vector store returning a fixed ranked result list mixing applicants. -/
def vsMixed : VectorStore where
  similarity_search_with_score := fun _ _ =>
    .ok [(docBob, 0), (docJane, 1), (docBob, 2), (docJane, 3)]
  get_relevant_documents := fun _ _ => .ok [docBob, docJane]

/-- An LLM oracle that always succeeds. -/
def llmOk : Str → Str → Except Str Str := fun _ _ => .ok ("fine".data)

/-- An LLM oracle that always fails. -/
def llmBoom : Str → Str → Except Str Str := fun _ _ => .error ("boom".data)

/-- A readable PDF upload. -/
def fileOk : UploadedFile where
  name := "Jane Doe.pdf".data
  ftype := pdfMime
  payload := .ok ("jane cv text".data)

/-- A readable DOCX upload. -/
def fileOk2 : UploadedFile where
  name := "Bob Stone.docx".data
  ftype := docxMime
  payload := .ok ("bob cv text".data)

/-- A PDF upload on which the reader raises. -/
def fileBad : UploadedFile where
  name := "Broken.pdf".data
  ftype := pdfMime
  payload := .error ("EOF marker not found".data)

/-- An upload of an unsupported format. -/
def fileOdd : UploadedFile where
  name := "notes.txt".data
  ftype := "text/plain".data
  payload := .ok ("notes".data)

/-- A text splitter producing no chunks at all. -/
def splitNil : Str → List Str := fun _ => []

/-- An index builder oracle that always fails. -/
def fromDocsFail : List LangchainDocument → Except Str FAISSIndex :=
  fun _ => .error ("build error".data)

/-- C1: is_count_query is true exactly when the lower-cased query contains at
least one counting keyword and at least one corpus-noun keyword; a query with
only a counting phrase, such as the years-of-experience example, is not a
count query. -/
theorem C1_is_count_query_iff :
    (∀ q : Str, is_count_query q = true ↔
      ((∃ k ∈ Config.COUNT_KEYWORDS, containsSub (lowerStr q) k = true) ∧
       (∃ k ∈ Config.CV_KEYWORDS, containsSub (lowerStr q) k = true))) ∧
    is_count_query ("How many CVs do you have?".data) = true ∧
    is_count_query ("How many years of experience?".data) = false := by
  refine ⟨fun q => ?_, by decide, by decide⟩
  simp [is_count_query, List.any_eq_true]

/-- C2: a query classified as a count query is answered by exactly the single
synthetic system count document, for every vector store, so the index is never
consulted and the count branch wins over the person-specific branch. -/
theorem C2_count_query_routing (q : Str) (vs : VectorStore) (names : List Str)
    (h : is_count_query q = true) :
    RAGEngine.build_context_from_query q vs names = [RAGEngine.count_doc names] := by
  simp [RAGEngine.build_context_from_query, h]

theorem C2_count_query_routing_witness :
    is_count_query ("How many CVs from many applicants?".data) = true ∧
    is_applicant_specific ("How many CVs from many applicants?".data) [("Many".data)] =
      some ("Many".data) ∧
    RAGEngine.build_context_from_query ("How many CVs from many applicants?".data)
      vsEmpty [("Many".data)] = [RAGEngine.count_doc [("Many".data)]] ∧
    RAGEngine.build_context_from_query ("How many CVs from many applicants?".data)
      vsMixed [("Many".data)] = [RAGEngine.count_doc [("Many".data)]] :=
  ⟨by decide, by decide,
   C2_count_query_routing _ _ _ (by decide),
   C2_count_query_routing _ _ _ (by decide)⟩

/-- is_applicant_specific is the first-match search of the standard find
function over the name list. -/
theorem is_applicant_specific_eq_find (q : Str) (names : List Str) :
    is_applicant_specific q names =
      names.find? (fun m => containsSub (lowerStr q) (lowerStr m)) := by
  induction names with
  | nil => rfl
  | cons name rest ih =>
    by_cases h : containsSub (lowerStr q) (lowerStr name) = true
    · simp [is_applicant_specific, h]
    · simp only [Bool.not_eq_true] at h
      simp [is_applicant_specific, h, ih]

/-- C3: is_applicant_specific returns some name exactly when that name occurs
in the list, its lower-cased form is a substring of the lower-cased query, and
every name listed before it fails the substring test; it returns none exactly
when no name in the list passes the substring test. -/
theorem C3_first_substring_match (q : Str) (names : List Str) :
    (∀ n, is_applicant_specific q names = some n ↔
      containsSub (lowerStr q) (lowerStr n) = true ∧
      ∃ pre post, names = pre ++ n :: post ∧
        ∀ m ∈ pre, containsSub (lowerStr q) (lowerStr m) = false) ∧
    (is_applicant_specific q names = none ↔
      ∀ m ∈ names, containsSub (lowerStr q) (lowerStr m) = false) := by
  constructor
  · intro n
    rw [is_applicant_specific_eq_find, List.find?_eq_some]
    simp
  · rw [is_applicant_specific_eq_find, List.find?_eq_none]
    simp

/-- C5: the document-embedding path prepends the passage marker to every
input before delegating to the underlying model, the query-embedding path
prepends the query marker instead, and the two framings differ on every
input text. -/
theorem C5_embedding_markers :
    (∀ base texts, E5Embeddings.embed_documents base texts =
      base (texts.map (fun text => ("passage: ".data) ++ text))) ∧
    (∀ base text, E5Embeddings.embed_query base text = base (("query: ".data) ++ text)) ∧
    (∀ text : Str, ("passage: ".data) ++ text ≠ ("query: ".data) ++ text) := by
  refine ⟨fun _ _ => rfl, fun _ _ => rfl, fun text h => ?_⟩
  have h1 : ((("passage: ".data) : Str) ++ text).head? = some 'p' := rfl
  rw [h] at h1
  have h2 : ((("query: ".data) : Str) ++ text).head? = some 'q' := rfl
  rw [h2] at h1
  exact absurd (Option.some.inj h1) (by decide)

/-- C6: when retrieval produces no documents, query returns the canned
no-relevant-documents result with an empty source list, and the result does
not depend on the generation oracle, which is therefore never invoked. -/
theorem C6_empty_retrieval_short_circuit
    (llm llm2 : Str → Str → Except Str Str) (q : Str) (vs : VectorStore)
    (names : List Str)
    (h : RAGEngine.build_context_from_query q vs names = []) :
    RAGEngine.query llm q vs names =
      { result := ("No relevant documents found.".data), source_documents := [] } ∧
    RAGEngine.query llm q vs names = RAGEngine.query llm2 q vs names := by
  constructor <;> simp [RAGEngine.query, h]

theorem C6_empty_retrieval_short_circuit_witness :
    RAGEngine.build_context_from_query ("hello".data) vsEmpty [] = [] ∧
    RAGEngine.query llmBoom ("hello".data) vsEmpty [] =
      { result := ("No relevant documents found.".data), source_documents := [] } ∧
    RAGEngine.query llmBoom ("hello".data) vsEmpty [] =
      RAGEngine.query llmOk ("hello".data) vsEmpty [] :=
  ⟨by decide,
   (C6_empty_retrieval_short_circuit llmBoom llmOk _ _ _ (by decide)).1,
   (C6_empty_retrieval_short_circuit llmBoom llmOk _ _ _ (by decide)).2⟩

/-- C7: query is a total function and always yields a displayable result:
either retrieval was empty and the canned message is returned with no
sources, or the generation oracle succeeded and its answer is returned with
the retrieved sources, or the generation oracle failed and a textual error
result is returned with an empty source list; no exception escapes. -/
theorem C7_query_never_throws (llm : Str → Str → Except Str Str) (q : Str)
    (vs : VectorStore) (names : List Str) :
    (RAGEngine.build_context_from_query q vs names = [] ∧
      RAGEngine.query llm q vs names =
        { result := ("No relevant documents found.".data), source_documents := [] }) ∨
    (∃ a, llm (RAGEngine.build_context_text (RAGEngine.build_context_from_query q vs names)) q =
        .ok a ∧
      RAGEngine.query llm q vs names =
        { result := a,
          source_documents := RAGEngine.build_context_from_query q vs names }) ∨
    (∃ e, llm (RAGEngine.build_context_text (RAGEngine.build_context_from_query q vs names)) q =
        .error e ∧
      RAGEngine.query llm q vs names =
        { result := ("Error occurred: ".data) ++ e, source_documents := [] }) := by
  by_cases hd : RAGEngine.build_context_from_query q vs names = []
  · exact Or.inl ⟨hd, by simp [RAGEngine.query, hd]⟩
  · right
    cases hl : llm (RAGEngine.build_context_text (RAGEngine.build_context_from_query q vs names)) q with
    | ok a =>
      exact Or.inl ⟨a, rfl, by simp [RAGEngine.query, hd, hl]⟩
    | error e =>
      exact Or.inr ⟨e, rfl, by simp [RAGEngine.query, hd, hl]⟩

/-- C9: when chunking the applicant CVs yields no documents at all, index
construction returns no index: the build fails as a whole and no partial
index is ever produced. -/
theorem C9_empty_corpus_build_fails (split : Str → List Str)
    (from_documents : List LangchainDocument → Except Str FAISSIndex)
    (applicant_cvs : List (Str × Str))
    (h : VectorStoreManager.create_documents_from_cvs split applicant_cvs = []) :
    VectorStoreManager.create_vectorstore split from_documents applicant_cvs = none := by
  simp [VectorStoreManager.create_vectorstore, h]

theorem C9_empty_corpus_build_fails_witness :
    VectorStoreManager.create_documents_from_cvs splitNil
      [(("Ann".data), ("cv text".data))] = [] ∧
    VectorStoreManager.create_vectorstore splitNil fromDocsFail
      [(("Ann".data), ("cv text".data))] = none ∧
    VectorStoreManager.create_vectorstore splitNil fromDocsFail [] = none :=
  ⟨by decide,
   C9_empty_corpus_build_fails _ _ _ (by decide),
   C9_empty_corpus_build_fails _ _ _ (by decide)⟩

/-- The filtered person-specific result never exceeds the truncation count. -/
theorem filter_documents_length_le (dws : List (LangchainDocument × Int))
    (name : Str) (k : Nat) :
    (DocumentRetriever.filter_documents_by_applicant dws name k).length ≤ k := by
  simp only [DocumentRetriever.filter_documents_by_applicant]
  exact List.length_take_le k
    ((dws.filter (fun p => lowerStr (p.1.applicant.getD []) == lowerStr name)).map
      (fun p => p.1))

/-- Every document surviving the applicant filter carries the requested
applicant name, up to case. -/
theorem filter_documents_mem_applicant (dws : List (LangchainDocument × Int))
    (name : Str) (k : Nat) :
    ∀ d ∈ DocumentRetriever.filter_documents_by_applicant dws name k,
      lowerStr (d.applicant.getD []) = lowerStr name := by
  intro d hd
  unfold DocumentRetriever.filter_documents_by_applicant at hd
  have hd2 := List.mem_of_mem_take hd
  rw [List.mem_map] at hd2
  obtain ⟨p, hp, hpd⟩ := hd2
  rw [List.mem_filter] at hp
  rw [← hpd]
  exact eq_of_beq hp.2

/-- The applicant filter preserves the ranked order: its output is a sublist
of the ranked documents. -/
theorem filter_documents_sublist (dws : List (LangchainDocument × Int))
    (name : Str) (k : Nat) :
    List.Sublist (DocumentRetriever.filter_documents_by_applicant dws name k)
      (dws.map (fun p => p.1)) := by
  unfold DocumentRetriever.filter_documents_by_applicant
  exact (List.take_sublist _ _).trans ((List.filter_sublist _).map _)

/-- C4: a non-count query matching applicant N is answered from the broad
100-result ranked search, keeping in rank order only the documents whose
applicant metadata equals N case-insensitively and truncating to 5; hence at
most five documents come back, all tagged with N, in search rank order. -/
theorem C4_person_specific_routing (q : Str) (vs : VectorStore)
    (names : List Str) (N : Str)
    (hc : is_count_query q = false)
    (ha : is_applicant_specific q names = some N) :
    RAGEngine.build_context_from_query q vs names =
      DocumentRetriever.filter_documents_by_applicant
        (DocumentRetriever.retrieve_with_scores vs q Config.MAX_SIMILARITY_DOCS)
        N Config.SPECIFIC_RETRIEVAL_K ∧
    (RAGEngine.build_context_from_query q vs names).length ≤ Config.SPECIFIC_RETRIEVAL_K ∧
    (∀ d ∈ RAGEngine.build_context_from_query q vs names,
      lowerStr (d.applicant.getD []) = lowerStr N) ∧
    List.Sublist (RAGEngine.build_context_from_query q vs names)
      ((DocumentRetriever.retrieve_with_scores vs q Config.MAX_SIMILARITY_DOCS).map
        (fun p => p.1)) := by
  have hb : RAGEngine.build_context_from_query q vs names =
      DocumentRetriever.filter_documents_by_applicant
        (DocumentRetriever.retrieve_with_scores vs q Config.MAX_SIMILARITY_DOCS)
        N Config.SPECIFIC_RETRIEVAL_K := by
    simp [RAGEngine.build_context_from_query, hc, ha]
  refine ⟨hb, ?_, ?_, ?_⟩ <;> rw [hb]
  · exact filter_documents_length_le _ _ _
  · exact filter_documents_mem_applicant _ _ _
  · exact filter_documents_sublist _ _ _

theorem C4_person_specific_routing_witness :
    is_count_query ("What skills does Jane Doe bring?".data) = false ∧
    is_applicant_specific ("What skills does Jane Doe bring?".data)
      [("Bob Stone".data), ("Jane Doe".data)] = some ("Jane Doe".data) ∧
    (RAGEngine.build_context_from_query ("What skills does Jane Doe bring?".data)
        vsMixed [("Bob Stone".data), ("Jane Doe".data)] =
      DocumentRetriever.filter_documents_by_applicant
        (DocumentRetriever.retrieve_with_scores vsMixed
          ("What skills does Jane Doe bring?".data) Config.MAX_SIMILARITY_DOCS)
        ("Jane Doe".data) Config.SPECIFIC_RETRIEVAL_K ∧
    (RAGEngine.build_context_from_query ("What skills does Jane Doe bring?".data)
        vsMixed [("Bob Stone".data), ("Jane Doe".data)]).length ≤
      Config.SPECIFIC_RETRIEVAL_K ∧
    (∀ d ∈ RAGEngine.build_context_from_query ("What skills does Jane Doe bring?".data)
        vsMixed [("Bob Stone".data), ("Jane Doe".data)],
      lowerStr (d.applicant.getD []) = lowerStr ("Jane Doe".data)) ∧
    List.Sublist (RAGEngine.build_context_from_query
        ("What skills does Jane Doe bring?".data)
        vsMixed [("Bob Stone".data), ("Jane Doe".data)])
      ((DocumentRetriever.retrieve_with_scores vsMixed
        ("What skills does Jane Doe bring?".data) Config.MAX_SIMILARITY_DOCS).map
        (fun p => p.1))) :=
  ⟨by decide, by decide,
   C4_person_specific_routing _ _ _ _ (by decide) (by decide)⟩

/-- Processing a file of an unsupported format leaves the loop state alone. -/
theorem extract_go_skip_step (f : UploadedFile)
    (h1 : f.ftype ≠ pdfMime) (h2 : f.ftype ≠ docxMime)
    (rest : List UploadedFile) (acc : List (Str × Str)) :
    DocumentProcessor.extract_go (f :: rest) acc =
      DocumentProcessor.extract_go rest acc := by
  have e1 : (f.ftype == pdfMime) = false := by simpa using h1
  have e2 : (f.ftype == docxMime) = false := by simpa using h2
  simp [DocumentProcessor.extract_go, e1, e2]

/-- Processing a failing PDF records the wrapped warning and leaves the
dictionary alone. -/
theorem extract_go_fail_pdf_step (f : UploadedFile) (e : Str)
    (hf : f.ftype = pdfMime) (hp : f.payload = .error e)
    (rest : List UploadedFile) (acc : List (Str × Str)) :
    DocumentProcessor.extract_go (f :: rest) acc =
      ((DocumentProcessor.extract_go rest acc).1,
        DocumentProcessor.warnMsg f (("Error reading PDF file: ".data) ++ e) ::
          (DocumentProcessor.extract_go rest acc).2) := by
  have e1 : (f.ftype == pdfMime) = true := by simpa using hf
  simp [DocumentProcessor.extract_go, e1, DocumentProcessor.extract_text_from_pdf, hp]

/-- Processing a failing DOCX records the wrapped warning and leaves the
dictionary alone. -/
theorem extract_go_fail_docx_step (f : UploadedFile) (e : Str)
    (hf : f.ftype = docxMime) (hd : f.ftype ≠ pdfMime) (hp : f.payload = .error e)
    (rest : List UploadedFile) (acc : List (Str × Str)) :
    DocumentProcessor.extract_go (f :: rest) acc =
      ((DocumentProcessor.extract_go rest acc).1,
        DocumentProcessor.warnMsg f (("Error reading DOCX file: ".data) ++ e) ::
          (DocumentProcessor.extract_go rest acc).2) := by
  have e1 : (f.ftype == pdfMime) = false := by simpa using hd
  have e2 : (f.ftype == docxMime) = true := by simpa using hf
  simp [DocumentProcessor.extract_go, e1, e2,
    DocumentProcessor.extract_text_from_docx, hp]

/-- A file whose step leaves the state alone can be deleted from anywhere in
the batch without changing the loop result. -/
theorem extract_go_delete (f : UploadedFile)
    (hstep : ∀ rest acc, DocumentProcessor.extract_go (f :: rest) acc =
      DocumentProcessor.extract_go rest acc) :
    ∀ (pre post : List UploadedFile) (acc : List (Str × Str)),
      DocumentProcessor.extract_go (pre ++ f :: post) acc =
        DocumentProcessor.extract_go (pre ++ post) acc := by
  intro pre
  induction pre with
  | nil => intro post acc; exact hstep post acc
  | cons g pre ih =>
    intro post acc
    by_cases hg1 : (g.ftype == pdfMime) = true
    · cases hpay : g.payload with
      | ok t =>
        simp only [List.cons_append, DocumentProcessor.extract_go, hg1,
          DocumentProcessor.extract_text_from_pdf, hpay, if_true]
        exact ih post _
      | error e =>
        simp only [List.cons_append, DocumentProcessor.extract_go, hg1,
          DocumentProcessor.extract_text_from_pdf, hpay, if_true, List.append_eq]
        rw [ih post acc]
    · by_cases hg2 : (g.ftype == docxMime) = true
      · cases hpay : g.payload with
        | ok t =>
          simp only [List.cons_append, DocumentProcessor.extract_go, hg1, hg2,
            DocumentProcessor.extract_text_from_docx, hpay, if_false, if_true,
            Bool.false_eq_true]
          exact ih post _
        | error e =>
          simp only [List.cons_append, DocumentProcessor.extract_go, hg1, hg2,
            DocumentProcessor.extract_text_from_docx, hpay, if_false, if_true,
            Bool.false_eq_true, List.append_eq]
          rw [ih post acc]
      · simp only [List.cons_append, DocumentProcessor.extract_go, hg1, hg2,
          if_false, Bool.false_eq_true]
        exact ih post acc

/-- A file whose step only records a warning can be deleted from anywhere in
the batch without changing the dictionary, and its warning is recorded. -/
theorem extract_go_warn (f : UploadedFile) (w : Str)
    (hstep : ∀ rest acc, DocumentProcessor.extract_go (f :: rest) acc =
      ((DocumentProcessor.extract_go rest acc).1,
        w :: (DocumentProcessor.extract_go rest acc).2)) :
    ∀ (pre post : List UploadedFile) (acc : List (Str × Str)),
      (DocumentProcessor.extract_go (pre ++ f :: post) acc).1 =
        (DocumentProcessor.extract_go (pre ++ post) acc).1 ∧
      w ∈ (DocumentProcessor.extract_go (pre ++ f :: post) acc).2 := by
  intro pre
  induction pre with
  | nil =>
    intro post acc
    rw [List.nil_append, List.nil_append, hstep post acc]
    exact ⟨rfl, List.mem_cons_self _ _⟩
  | cons g pre ih =>
    intro post acc
    by_cases hg1 : (g.ftype == pdfMime) = true
    · cases hpay : g.payload with
      | ok t =>
        simp only [List.cons_append, DocumentProcessor.extract_go, hg1,
          DocumentProcessor.extract_text_from_pdf, hpay, if_true]
        exact ih post _
      | error e =>
        simp only [List.cons_append, DocumentProcessor.extract_go, hg1,
          DocumentProcessor.extract_text_from_pdf, hpay, if_true]
        exact ⟨(ih post acc).1, List.mem_cons_of_mem _ (ih post acc).2⟩
    · by_cases hg2 : (g.ftype == docxMime) = true
      · cases hpay : g.payload with
        | ok t =>
          simp only [List.cons_append, DocumentProcessor.extract_go, hg1, hg2,
            DocumentProcessor.extract_text_from_docx, hpay, if_false, if_true,
            Bool.false_eq_true]
          exact ih post _
        | error e =>
          simp only [List.cons_append, DocumentProcessor.extract_go, hg1, hg2,
            DocumentProcessor.extract_text_from_docx, hpay, if_false, if_true,
            Bool.false_eq_true]
          exact ⟨(ih post acc).1, List.mem_cons_of_mem _ (ih post acc).2⟩
      · simp only [List.cons_append, DocumentProcessor.extract_go, hg1, hg2,
          if_false, Bool.false_eq_true]
        exact ih post acc

/-- C8: one bad document never aborts the batch: deleting an unsupported file
from the batch leaves the whole result unchanged, and deleting a file whose
extraction fails leaves the returned name-to-text dictionary unchanged while
its wrapped warning is recorded; every other document is still processed. -/
theorem C8_batch_failure_isolation (pre post : List UploadedFile) (f : UploadedFile) :
    ((f.ftype ≠ pdfMime ∧ f.ftype ≠ docxMime) →
      DocumentProcessor.extract_text_from_files (pre ++ f :: post) =
        DocumentProcessor.extract_text_from_files (pre ++ post)) ∧
    (∀ e, f.ftype = pdfMime → f.payload = .error e →
      (DocumentProcessor.extract_text_from_files (pre ++ f :: post)).1 =
        (DocumentProcessor.extract_text_from_files (pre ++ post)).1 ∧
      DocumentProcessor.warnMsg f (("Error reading PDF file: ".data) ++ e) ∈
        (DocumentProcessor.extract_text_from_files (pre ++ f :: post)).2) ∧
    (∀ e, f.ftype = docxMime → f.ftype ≠ pdfMime → f.payload = .error e →
      (DocumentProcessor.extract_text_from_files (pre ++ f :: post)).1 =
        (DocumentProcessor.extract_text_from_files (pre ++ post)).1 ∧
      DocumentProcessor.warnMsg f (("Error reading DOCX file: ".data) ++ e) ∈
        (DocumentProcessor.extract_text_from_files (pre ++ f :: post)).2) := by
  refine ⟨fun h => ?_, fun e hf hp => ?_, fun e hf hd hp => ?_⟩
  · exact extract_go_delete f (fun rest acc => extract_go_skip_step f h.1 h.2 rest acc)
      pre post []
  · exact extract_go_warn f _ (fun rest acc => extract_go_fail_pdf_step f e hf hp rest acc)
      pre post []
  · exact extract_go_warn f _
      (fun rest acc => extract_go_fail_docx_step f e hf hd hp rest acc) pre post []

theorem C8_batch_failure_isolation_witness :
    (DocumentProcessor.extract_text_from_files [fileOk, fileBad, fileOk2]).1 =
      (DocumentProcessor.extract_text_from_files [fileOk, fileOk2]).1 ∧
    DocumentProcessor.warnMsg fileBad
        (("Error reading PDF file: ".data) ++ ("EOF marker not found".data)) ∈
      (DocumentProcessor.extract_text_from_files [fileOk, fileBad, fileOk2]).2 ∧
    DocumentProcessor.extract_text_from_files [fileOk, fileOdd, fileOk2] =
      DocumentProcessor.extract_text_from_files [fileOk, fileOk2] :=
  ⟨((C8_batch_failure_isolation [fileOk] [fileOk2] fileBad).2.1 _ rfl rfl).1,
   ((C8_batch_failure_isolation [fileOk] [fileOk2] fileBad).2.1 _ rfl rfl).2,
   (C8_batch_failure_isolation [fileOk] [fileOk2] fileOdd).1 ⟨by decide, by decide⟩⟩

/-- A list equal to its own whitespace-drop has a non-whitespace head. -/
theorem dropWhile_eq_self_head {p : Char → Bool} (d : Char) (ds : Str)
    (h : (d :: ds).dropWhile p = d :: ds) : p d = false := by
  by_cases hd : p d = true
  · rw [List.dropWhile_cons_of_pos hd] at h
    have hlen := congrArg List.length h
    have hle := (List.dropWhile_sublist (l := ds) p).length_le
    simp at hlen
    omega
  · simpa using hd

/-- Every piece produced by splitting on whitespace is whitespace-free. -/
theorem splitOnP_words_not_ws (s : Str) :
    ∀ w ∈ s.splitOnP isWS, ∀ c ∈ w, isWS c = false := by
  induction s with
  | nil =>
    intro w hw c hc
    rw [List.splitOnP_nil] at hw
    simp only [List.mem_singleton] at hw
    subst hw
    simp at hc
  | cons a t ih =>
    intro w hw c hc
    rw [List.splitOnP_cons] at hw
    by_cases ha : isWS a = true
    · rw [if_pos ha] at hw
      rcases List.mem_cons.mp hw with h | h
      · subst h; simp at hc
      · exact ih w h c hc
    · rw [if_neg ha] at hw
      cases hsp : t.splitOnP isWS with
      | nil => exact absurd hsp (List.splitOnP_ne_nil _ _)
      | cons h0 t0 =>
        rw [hsp, List.modifyHead_cons] at hw
        rcases List.mem_cons.mp hw with h | h
        · subst h
          rcases List.mem_cons.mp hc with h | h
          · subst h; simpa using ha
          · exact ih h0 (by rw [hsp]; exact List.mem_cons_self _ _) c h
        · exact ih w (by rw [hsp]; exact List.mem_cons_of_mem _ h) c hc

/-- Every character of a whitespace-split piece comes from the input. -/
theorem splitOnP_words_subset (s : Str) :
    ∀ w ∈ s.splitOnP isWS, ∀ c ∈ w, c ∈ s := by
  induction s with
  | nil =>
    intro w hw c hc
    rw [List.splitOnP_nil] at hw
    simp only [List.mem_singleton] at hw
    subst hw
    simp at hc
  | cons a t ih =>
    intro w hw c hc
    rw [List.splitOnP_cons] at hw
    by_cases ha : isWS a = true
    · rw [if_pos ha] at hw
      rcases List.mem_cons.mp hw with h | h
      · subst h; simp at hc
      · exact List.mem_cons_of_mem _ (ih w h c hc)
    · rw [if_neg ha] at hw
      cases hsp : t.splitOnP isWS with
      | nil => exact absurd hsp (List.splitOnP_ne_nil _ _)
      | cons h0 t0 =>
        rw [hsp, List.modifyHead_cons] at hw
        rcases List.mem_cons.mp hw with h | h
        · subst h
          rcases List.mem_cons.mp hc with h | h
          · subst h; exact List.mem_cons_self _ _
          · exact List.mem_cons_of_mem _
              (ih h0 (by rw [hsp]; exact List.mem_cons_self _ _) c h)
        · exact List.mem_cons_of_mem _
            (ih w (by rw [hsp]; exact List.mem_cons_of_mem _ h) c hc)

/-- The words delivered by pySplit are nonempty. -/
theorem pySplit_words_ne_nil (s : Str) : ∀ w ∈ pySplit s, w ≠ [] := by
  intro w hw
  unfold pySplit at hw
  rw [List.mem_filter] at hw
  simpa [List.isEmpty_iff] using hw.2

/-- The words delivered by pySplit are whitespace-free. -/
theorem pySplit_words_not_ws (s : Str) :
    ∀ w ∈ pySplit s, ∀ c ∈ w, isWS c = false :=
  fun w hw => splitOnP_words_not_ws s w (List.mem_of_mem_filter hw)

/-- The characters of the words delivered by pySplit come from the input. -/
theorem pySplit_words_subset (s : Str) :
    ∀ w ∈ pySplit s, ∀ c ∈ w, c ∈ s :=
  fun w hw => splitOnP_words_subset s w (List.mem_of_mem_filter hw)

/-- Every character of a space-join is a space or comes from some word. -/
theorem joinSp_mem (ws : List Str) (c : Char) (hc : c ∈ joinSp ws) :
    c = ' ' ∨ ∃ w ∈ ws, c ∈ w := by
  induction ws with
  | nil => simp [joinSp] at hc
  | cons w t ih =>
    cases t with
    | nil =>
      right
      exact ⟨w, List.mem_cons_self _ _, by simpa [joinSp] using hc⟩
    | cons w2 t2 =>
      rw [show joinSp (w :: w2 :: t2) = w ++ ' ' :: joinSp (w2 :: t2) from rfl] at hc
      rcases List.mem_append.mp hc with h | h
      · exact Or.inr ⟨w, List.mem_cons_self _ _, h⟩
      · rcases List.mem_cons.mp h with h | h
        · exact Or.inl h
        · rcases ih h with h | ⟨w9, hw9, hcw⟩
          · exact Or.inl h
          · exact Or.inr ⟨w9, List.mem_cons_of_mem _ hw9, hcw⟩

/-- Splitting the space-join of nonempty whitespace-free words recovers the
words: the roundtrip of pySplit after joinSp is the identity. -/
theorem pySplit_joinSp (ws : List Str)
    (h1 : ∀ w ∈ ws, w ≠ [])
    (h2 : ∀ w ∈ ws, ∀ c ∈ w, isWS c = false) :
    pySplit (joinSp ws) = ws := by
  induction ws with
  | nil => rfl
  | cons w t ih =>
    have hw : w ≠ [] := h1 w (List.mem_cons_self _ _)
    have hcs : ∀ x ∈ w, ¬(isWS x = true) := fun x hx => by
      simp [h2 w (List.mem_cons_self _ _) x hx]
    have hwT : (!w.isEmpty) = true := by simp [List.isEmpty_iff, hw]
    cases t with
    | nil =>
      show pySplit (joinSp [w]) = [w]
      rw [show joinSp [w] = w from rfl]
      unfold pySplit
      rw [List.splitOnP_eq_single _ _ hcs, List.filter_cons, if_pos hwT]
      rfl
    | cons w2 t2 =>
      have hsep : isWS ' ' = true := by decide
      have key : (w ++ ' ' :: joinSp (w2 :: t2)).splitOnP isWS =
          w :: (joinSp (w2 :: t2)).splitOnP isWS :=
        List.splitOnP_first _ _ hcs ' ' hsep _
      have ih2 : pySplit (joinSp (w2 :: t2)) = w2 :: t2 :=
        ih (fun x hx => h1 x (List.mem_cons_of_mem _ hx))
          (fun x hx => h2 x (List.mem_cons_of_mem _ hx))
      show pySplit (joinSp (w :: w2 :: t2)) = w :: w2 :: t2
      rw [show joinSp (w :: w2 :: t2) = w ++ ' ' :: joinSp (w2 :: t2) from rfl]
      unfold pySplit
      rw [key, List.filter_cons, if_pos hwT]
      exact congrArg (List.cons w) ih2

/-- The space-join of nonempty words is nonempty when there is a word. -/
theorem joinSp_ne_nil (ws : List Str) (hne : ws ≠ [])
    (h1 : ∀ w ∈ ws, w ≠ []) : joinSp ws ≠ [] := by
  cases ws with
  | nil => exact absurd rfl hne
  | cons w t =>
    cases t with
    | nil =>
      exact fun h => (h1 w (List.mem_cons_self _ _)) (by simpa [joinSp] using h)
    | cons w2 t2 =>
      show w ++ ' ' :: joinSp (w2 :: t2) ≠ []
      simp

/-- The space-join of nonempty whitespace-free words has no leading
whitespace. -/
theorem joinSp_dropWhile (ws : List Str)
    (h1 : ∀ w ∈ ws, w ≠ [])
    (h2 : ∀ w ∈ ws, ∀ c ∈ w, isWS c = false) :
    (joinSp ws).dropWhile isWS = joinSp ws := by
  cases ws with
  | nil => rfl
  | cons w t =>
    have hw : w ≠ [] := h1 w (List.mem_cons_self _ _)
    obtain ⟨c, cs, hwc⟩ := List.exists_cons_of_ne_nil hw
    have hc : isWS c = false :=
      h2 w (List.mem_cons_self _ _) c (by rw [hwc]; exact List.mem_cons_self _ _)
    cases t with
    | nil =>
      show (joinSp [w]).dropWhile isWS = joinSp [w]
      rw [show joinSp [w] = w from rfl, hwc,
        List.dropWhile_cons_of_neg (by simp [hc])]
    | cons w2 t2 =>
      rw [show joinSp (w :: w2 :: t2) = w ++ ' ' :: joinSp (w2 :: t2) from rfl, hwc,
        List.cons_append, List.dropWhile_cons_of_neg (by simp [hc])]

/-- The space-join of nonempty whitespace-free words has no trailing
whitespace. -/
theorem joinSp_reverse_dropWhile (ws : List Str)
    (h1 : ∀ w ∈ ws, w ≠ [])
    (h2 : ∀ w ∈ ws, ∀ c ∈ w, isWS c = false) :
    (joinSp ws).reverse.dropWhile isWS = (joinSp ws).reverse := by
  induction ws with
  | nil => rfl
  | cons w t ih =>
    have hw : w ≠ [] := h1 w (List.mem_cons_self _ _)
    cases t with
    | nil =>
      cases hwr : w.reverse with
      | nil => exact absurd (List.reverse_eq_nil_iff.mp hwr) hw
      | cons d ds =>
        have hd : d ∈ w := List.mem_reverse.mp (by rw [hwr]; exact List.mem_cons_self _ _)
        have hdws : isWS d = false := h2 w (List.mem_cons_self _ _) d hd
        show (joinSp [w]).reverse.dropWhile isWS = (joinSp [w]).reverse
        rw [show joinSp [w] = w from rfl, hwr,
          List.dropWhile_cons_of_neg (by simp [hdws])]
    | cons w2 t2 =>
      have hJne : joinSp (w2 :: t2) ≠ [] :=
        joinSp_ne_nil (w2 :: t2) (by simp)
          (fun x hx => h1 x (List.mem_cons_of_mem _ hx))
      have ih2 : (joinSp (w2 :: t2)).reverse.dropWhile isWS =
          (joinSp (w2 :: t2)).reverse :=
        ih (fun x hx => h1 x (List.mem_cons_of_mem _ hx))
          (fun x hx => h2 x (List.mem_cons_of_mem _ hx))
      cases hJr : (joinSp (w2 :: t2)).reverse with
      | nil => exact absurd (List.reverse_eq_nil_iff.mp hJr) hJne
      | cons d ds =>
        have hd : isWS d = false := dropWhile_eq_self_head d ds (by rw [← hJr]; exact ih2)
        rw [show joinSp (w :: w2 :: t2) = w ++ ' ' :: joinSp (w2 :: t2) from rfl,
          List.reverse_append, List.reverse_cons, hJr]
        simp only [List.cons_append, List.append_assoc]
        rw [List.dropWhile_cons_of_neg (by simp [hd])]

/-- Stripping is the identity on the space-join of nonempty whitespace-free
words. -/
theorem pyStrip_joinSp (ws : List Str)
    (h1 : ∀ w ∈ ws, w ≠ [])
    (h2 : ∀ w ∈ ws, ∀ c ∈ w, isWS c = false) :
    pyStrip (joinSp ws) = joinSp ws := by
  unfold pyStrip
  rw [joinSp_dropWhile ws h1 h2, joinSp_reverse_dropWhile ws h1 h2,
    List.reverse_reverse]

/-- The two artifact filters are the identity on artifact-free text. -/
theorem filters_id_of_no_artifacts (l : Str)
    (h : ∀ c ∈ l, c ≠ '\x00' ∧ c ≠ '�') :
    (l.filter (fun c => c != '\x00')).filter (fun c => c != '�') = l := by
  have e1 : l.filter (fun c => c != '\x00') = l :=
    List.filter_eq_self.mpr (fun a ha => by simpa using (h a ha).1)
  rw [e1]
  exact List.filter_eq_self.mpr (fun a ha => by simpa using (h a ha).2)

/-- Joining the split of artifact-free text yields artifact-free text. -/
theorem joinSp_pySplit_no_artifacts (s : Str)
    (h : ∀ c ∈ s, c ≠ '\x00' ∧ c ≠ '�') :
    ∀ c ∈ joinSp (pySplit s), c ≠ '\x00' ∧ c ≠ '�' := by
  intro c hc
  rcases joinSp_mem (pySplit s) c hc with h1 | ⟨w, hw, hcw⟩
  · subst h1; exact ⟨by decide, by decide⟩
  · exact h c (pySplit_words_subset s w hw c hcw)

/-- On artifact-free input, clean_text is exactly the space-join of the
whitespace split: the filters and the final strip do nothing. -/
theorem clean_text_eq_joinSp (s : Str)
    (h : ∀ c ∈ s, c ≠ '\x00' ∧ c ≠ '�') :
    clean_text s = joinSp (pySplit s) := by
  cases hs : s with
  | nil => rfl
  | cons a t =>
    rw [← hs]
    unfold clean_text
    rw [if_neg (by simp [hs])]
    rw [filters_id_of_no_artifacts _ (joinSp_pySplit_no_artifacts s h)]
    exact pyStrip_joinSp _ (pySplit_words_ne_nil s) (pySplit_words_not_ws s)

/-- C10 counterexample: clean_text is not idempotent; on a word consisting of
one null character surrounded by spaces, the first pass leaves a double space
that the second pass collapses. -/
theorem C10_clean_text_not_idempotent :
    clean_text (clean_text ("a \x00 b".data)) ≠ clean_text ("a \x00 b".data) := by
  decide

/-- C10 amended: clean_text is idempotent on every input containing no null
and no replacement characters; one application already collapses whitespace
runs and strips the ends, so a second application changes nothing. -/
theorem C10_clean_text_idempotent_on_artifact_free (s : Str)
    (h : ∀ c ∈ s, c ≠ '\x00' ∧ c ≠ '�') :
    clean_text (clean_text s) = clean_text s := by
  have hs1 : clean_text s = joinSp (pySplit s) := clean_text_eq_joinSp s h
  have h2 : ∀ c ∈ joinSp (pySplit s), c ≠ '\x00' ∧ c ≠ '�' :=
    joinSp_pySplit_no_artifacts s h
  have hs2 : clean_text (joinSp (pySplit s)) = joinSp (pySplit (joinSp (pySplit s))) :=
    clean_text_eq_joinSp _ h2
  have hrt : pySplit (joinSp (pySplit s)) = pySplit s :=
    pySplit_joinSp (pySplit s) (pySplit_words_ne_nil s) (pySplit_words_not_ws s)
  rw [hs1, hs2, hrt]

theorem C10_clean_text_idempotent_on_artifact_free_witness :
    (∀ c ∈ ("  hello   world ".data), c ≠ '\x00' ∧ c ≠ '�') ∧
    clean_text (clean_text ("  hello   world ".data)) =
      clean_text ("  hello   world ".data) :=
  ⟨by decide, C10_clean_text_idempotent_on_artifact_free _ (by decide)⟩
